import Mathlib

/-!
Verification of the code-health report generator (`code-health.ts`).

The development shallowly embeds the data model and the pure aggregation,
grading, encoding and heuristic-analysis algorithms of the script.  Regex
matching over raw file content is embedded at the level the algorithms
consume it: either as explicit character-list scanners (hook-pattern
counting) or as per-line abstract match results (the function-start
pattern of the long-function detector), while brace counting, severity
counting, folding, grading and string assembly are translated directly.
-/

namespace CodeHealth

/-- Severity of one issue (`type` field of `Issue` in the source). -/
inductive Severity where
  | error
  | warning
  | info
deriving DecidableEq

/-- Status of one check (`status` field of `CheckResult`). -/
inductive Status where
  | pass
  | warn
  | fail
  | skip
deriving DecidableEq

/-- Letter grade of a run. -/
inductive Grade where
  | A
  | B
  | C
  | D
  | F
deriving DecidableEq

/-- One normalized finding (`interface Issue`). -/
structure Issue where
  type : Severity
  file : Option String := none
  line : Option Nat := none
  message : String
  rule : Option String := none
  fix : Option String := none
deriving DecidableEq

/-- Result of one check (`interface CheckResult`). -/
structure CheckResult where
  name : String
  status : Status
  duration : Nat
  issues : List Issue
  summary : String
  rawOutput : Option String := none
deriving DecidableEq

/-- The `totals` record of `HealthReport`. -/
structure Totals where
  errors : Nat
  warnings : Nat
  info : Nat
deriving DecidableEq

/-- The aggregated report (`interface HealthReport`). -/
structure HealthReport where
  timestamp : String
  duration : Nat
  checks : List CheckResult
  totals : Totals
  grade : Grade
deriving DecidableEq

/-- Number of issues of a given severity in a list
(`issues.filter(i => i.type === s).length` in the source). -/
def sevCount (issues : List Issue) (s : Severity) : Nat :=
  (issues.filter (fun i => decide (i.type = s))).length

/-- One step of the totals accumulation loop in `main`
(`if (issue.type === "error") totals.errors++;
  else if (issue.type === "warning") totals.warnings++;
  else totals.info++`). -/
def addIssue (t : Totals) (i : Issue) : Totals :=
  if i.type = Severity.error then { t with errors := t.errors + 1 }
  else if i.type = Severity.warning then { t with warnings := t.warnings + 1 }
  else { t with info := t.info + 1 }

/-- The totals computation of `main`: the nested
`for (const check of checks) for (const issue of check.issues)` loops
starting from `{errors: 0, warnings: 0, info: 0}`. -/
def computeTotals (checks : List CheckResult) : Totals :=
  checks.foldl (fun t c => c.issues.foldl addIssue t) ⟨0, 0, 0⟩

/-- Modelled from the spec: the elementwise severity count over every
issue of every check, the invariant the spec states for `totals`. -/
def severityCountSpec (checks : List CheckResult) (s : Severity) : Nat :=
  (checks.map (fun c => sevCount c.issues s)).sum

theorem sevCount_cons (i : Issue) (issues : List Issue) (s : Severity) :
    sevCount (i :: issues) s =
      (if i.type = s then 1 else 0) + sevCount issues s := by
  by_cases h : i.type = s <;> simp [sevCount, List.filter_cons, h]
  omega

theorem foldl_addIssue (issues : List Issue) (t : Totals) :
    issues.foldl addIssue t =
      ⟨t.errors + sevCount issues Severity.error,
       t.warnings + sevCount issues Severity.warning,
       t.info + sevCount issues Severity.info⟩ := by
  induction issues generalizing t with
  | nil => simp [sevCount]
  | cons i rest ih =>
    rw [List.foldl_cons, ih]
    rcases hty : i.type with h | h | h <;>
      simp [addIssue, hty, sevCount_cons] <;> omega

theorem computeTotals_eq (checks : List CheckResult) :
    computeTotals checks =
      ⟨severityCountSpec checks Severity.error,
       severityCountSpec checks Severity.warning,
       severityCountSpec checks Severity.info⟩ := by
  suffices h : ∀ (cs : List CheckResult) (t : Totals),
      cs.foldl (fun t c => c.issues.foldl addIssue t) t =
        ⟨t.errors + severityCountSpec cs Severity.error,
         t.warnings + severityCountSpec cs Severity.warning,
         t.info + severityCountSpec cs Severity.info⟩ by
    rw [computeTotals, h]
    simp
  intro cs
  induction cs with
  | nil => intro t; simp [severityCountSpec]
  | cons c rest ih =>
    intro t
    rw [List.foldl_cons, foldl_addIssue, ih]
    simp [severityCountSpec, List.map_cons, List.sum_cons]
    refine ⟨by omega, by omega, by omega⟩

/-- Claim C1: for every run, the report's totals (errors, warnings, infos)
computed by `main` equal the elementwise sum of issue severities over
every issue of every check: `totals.errors` is the number of issues with
severity `error` across all checks' issue lists, `totals.warnings` the
number with severity `warning`, and `totals.info` the number with
severity `info`. -/
theorem totals_are_severity_sums (checks : List CheckResult) :
    (computeTotals checks).errors = severityCountSpec checks Severity.error ∧
    (computeTotals checks).warnings = severityCountSpec checks Severity.warning ∧
    (computeTotals checks).info = severityCountSpec checks Severity.info := by
  rw [computeTotals_eq]
  exact ⟨rfl, rfl, rfl⟩

/-- The `calculateGrade` function of the source, reading
`report.totals.errors` and `report.totals.warnings`. -/
def calculateGrade (report : HealthReport) : Grade :=
  let errors := report.totals.errors
  let warnings := report.totals.warnings
  if errors = 0 ∧ warnings = 0 then Grade.A
  else if errors = 0 ∧ warnings ≤ 5 then Grade.B
  else if errors ≤ 2 ∧ warnings ≤ 15 then Grade.C
  else if errors ≤ 5 then Grade.D
  else Grade.F

/-- Modelled from the spec's words: grade as a first-match-wins chain over
the pair `(errors, warnings)` alone. -/
def gradeSpec (errors warnings : Nat) : Grade :=
  if errors = 0 ∧ warnings = 0 then Grade.A
  else if errors = 0 ∧ warnings ≤ 5 then Grade.B
  else if errors ≤ 2 ∧ warnings ≤ 15 then Grade.C
  else if errors ≤ 5 then Grade.D
  else Grade.F

/-- Claim C2: the grade is exactly the top-to-bottom first-match chain
`A` if `errors=0 ∧ warnings=0`; else `B` if `errors=0 ∧ warnings≤5`;
else `C` if `errors≤2 ∧ warnings≤15`; else `D` if `errors≤5`; else `F`,
depending only on the pair `(errors, warnings)` and ignoring the info
count (and every other report field) entirely. -/
theorem calculateGrade_spec (r : HealthReport) :
    calculateGrade r = gradeSpec r.totals.errors r.totals.warnings ∧
    (calculateGrade r = Grade.A ↔
      r.totals.errors = 0 ∧ r.totals.warnings = 0) ∧
    (calculateGrade r = Grade.B ↔
      r.totals.errors = 0 ∧ 0 < r.totals.warnings ∧ r.totals.warnings ≤ 5) ∧
    (calculateGrade r = Grade.C ↔
      r.totals.errors ≤ 2 ∧ r.totals.warnings ≤ 15 ∧
        ¬(r.totals.errors = 0 ∧ r.totals.warnings ≤ 5)) ∧
    (calculateGrade r = Grade.D ↔
      r.totals.errors ≤ 5 ∧ ¬(r.totals.errors ≤ 2 ∧ r.totals.warnings ≤ 15)) ∧
    (calculateGrade r = Grade.F ↔ 5 < r.totals.errors) := by
  simp only [calculateGrade, gradeSpec]
  split_ifs <;> simp_all <;> omega

theorem sevCount_pos_iff (issues : List Issue) (s : Severity) :
    0 < sevCount issues s ↔ ∃ i ∈ issues, i.type = s := by
  induction issues with
  | nil => simp [sevCount]
  | cons i rest ih =>
    rw [sevCount_cons]
    by_cases h : i.type = s
    · simp [h]
    · simpa [h] using ih

/-- Status derivation shared by the eslint, oxlint, knip, madge and
architecture adapters:
`errors > 0 ? "fail" : warnings > 0 ? "warn" : "pass"`. -/
def standardStatus (issues : List Issue) : Status :=
  if 0 < sevCount issues Severity.error then Status.fail
  else if 0 < sevCount issues Severity.warning then Status.warn
  else Status.pass

/-- Status derivation of `checkJscpd`:
`warnings > 10 ? "warn" : "pass"`. -/
def jscpdStatus (issues : List Issue) : Status :=
  if 10 < sevCount issues Severity.warning then Status.warn else Status.pass

/-- Status derivation of `checkComplexity`:
`errors > 0 ? "fail" : warnings > 5 ? "warn" : "pass"`. -/
def complexityStatus (issues : List Issue) : Status :=
  if 0 < sevCount issues Severity.error then Status.fail
  else if 5 < sevCount issues Severity.warning then Status.warn
  else Status.pass

/-- Status derivation of `checkStructure`:
`errors > 0 ? "fail" : warnings > 3 ? "warn" : "pass"`. -/
def structureStatus (issues : List Issue) : Status :=
  if 0 < sevCount issues Severity.error then Status.fail
  else if 3 < sevCount issues Severity.warning then Status.warn
  else Status.pass

/-- Status derivation of `checkTypeScript`:
`const errors = issues.length; errors > 0 ? "fail" : "pass"`. -/
def typeScriptStatus (issues : List Issue) : Status :=
  if 0 < issues.length then Status.fail else Status.pass

/-- Claim C3 counterexample: the status derivation is not uniform across
checks.  On a list holding a single `warning` issue the uniform rule
(used by eslint, oxlint, knip, madge and architecture) yields `warn`,
but the duplicate-code, complexity and structure checks all yield
`pass`, because they require more than 10, 5 and 3 warnings
respectively. -/
theorem status_rule_not_uniform :
    jscpdStatus [{ type := Severity.warning, message := "w" }] ≠
      standardStatus [{ type := Severity.warning, message := "w" }] ∧
    complexityStatus [{ type := Severity.warning, message := "w" }] ≠
      standardStatus [{ type := Severity.warning, message := "w" }] ∧
    structureStatus [{ type := Severity.warning, message := "w" }] ≠
      standardStatus [{ type := Severity.warning, message := "w" }] := by
  decide

/-- Claim C3 (amended): only the eslint, oxlint, knip, madge and
architecture checks derive status by the uniform rule `Fail` if any
`Error` issue is present, else `Warn` if any `Warning` issue is present,
else `Pass`.  The duplicate-code check is `Warn` iff it has more than 10
`Warning` issues and can never `Fail`; the complexity check is `Fail` if
any `Error` issue is present, else `Warn` iff more than 5 `Warning`
issues; the structure check is `Fail` if any `Error` issue is present,
else `Warn` iff more than 3 `Warning` issues; the TypeScript check is
`Fail` iff its issue list is nonempty. -/
theorem status_rules_amended (issues : List Issue) :
    (standardStatus issues = Status.fail ↔
      ∃ i ∈ issues, i.type = Severity.error) ∧
    (standardStatus issues = Status.warn ↔
      sevCount issues Severity.error = 0 ∧
        ∃ i ∈ issues, i.type = Severity.warning) ∧
    (jscpdStatus issues ≠ Status.fail) ∧
    (jscpdStatus issues = Status.warn ↔
      10 < sevCount issues Severity.warning) ∧
    (complexityStatus issues = Status.fail ↔
      ∃ i ∈ issues, i.type = Severity.error) ∧
    (complexityStatus issues = Status.warn ↔
      sevCount issues Severity.error = 0 ∧
        5 < sevCount issues Severity.warning) ∧
    (structureStatus issues = Status.fail ↔
      ∃ i ∈ issues, i.type = Severity.error) ∧
    (structureStatus issues = Status.warn ↔
      sevCount issues Severity.error = 0 ∧
        3 < sevCount issues Severity.warning) ∧
    (typeScriptStatus issues = Status.fail ↔ issues ≠ []) := by
  rw [← sevCount_pos_iff, ← sevCount_pos_iff]
  simp only [standardStatus, jscpdStatus, complexityStatus, structureStatus,
    typeScriptStatus]
  split_ifs <;> simp_all [List.length_pos] <;> omega

/-- Decimal digit list of `n` (most significant first), by fuelled
recursion so that it reduces in the kernel; embeds the JavaScript
number-to-string conversion used by template literals. -/
def natReprAux : Nat → Nat → List Char
  | 0, _ => []
  | fuel + 1, n =>
    if n = 0 then [] else natReprAux fuel (n / 10) ++ [Nat.digitChar (n % 10)]

/-- Decimal string of a natural number, as produced by a template
literal `${n}` in the source. -/
def natRepr (n : Nat) : String :=
  if n = 0 then "0" else String.mk (natReprAux n n)

theorem digitChar_toNat : ∀ d, d < 10 → (Nat.digitChar d).toNat = 48 + d := by
  decide

/-- Decoder for decimal digit lists, used to prove `natRepr` injective. -/
def digitsVal (cs : List Char) : Nat :=
  cs.foldl (fun a c => a * 10 + (c.toNat - 48)) 0

theorem digitsVal_append_digit (xs : List Char) (c : Char) :
    digitsVal (xs ++ [c]) = digitsVal xs * 10 + (c.toNat - 48) := by
  simp [digitsVal, List.foldl_append]

theorem natReprAux_val : ∀ fuel n, n ≤ fuel →
    digitsVal (natReprAux fuel n) = n := by
  intro fuel
  induction fuel with
  | zero =>
    intro n hn
    interval_cases n
    simp [natReprAux, digitsVal]
  | succ fuel ih =>
    intro n hn
    by_cases h : n = 0
    · simp [natReprAux, h, digitsVal]
    · rw [natReprAux, if_neg h, digitsVal_append_digit, ih (n / 10) (by omega),
        digitChar_toNat (n % 10) (Nat.mod_lt n (by omega))]
      omega

theorem natReprAux_digits : ∀ fuel n c, c ∈ natReprAux fuel n →
    48 ≤ c.toNat ∧ c.toNat ≤ 57 := by
  intro fuel
  induction fuel with
  | zero => intro n c hc; simp [natReprAux] at hc
  | succ fuel ih =>
    intro n c hc
    rw [natReprAux] at hc
    split at hc
    · simp at hc
    · rw [List.mem_append] at hc
      rcases hc with hc | hc
      · exact ih _ _ hc
      · simp at hc
        subst hc
        have h10 : n % 10 < 10 := Nat.mod_lt n (by omega)
        rw [digitChar_toNat (n % 10) h10]
        omega

theorem natRepr_data_digits (n : Nat) (c : Char) (hc : c ∈ (natRepr n).data) :
    48 ≤ c.toNat ∧ c.toNat ≤ 57 := by
  rw [natRepr] at hc
  split at hc
  · simp at hc
    subst hc
    exact ⟨by decide, by decide⟩
  · exact natReprAux_digits n n c hc

theorem natRepr_inj {m n : Nat} (h : natRepr m = natRepr n) : m = n := by
  have hdata : (natRepr m).data = (natRepr n).data := by rw [h]
  have hval : digitsVal (natRepr m).data = digitsVal (natRepr n).data := by
    rw [hdata]
  have hv : ∀ k, digitsVal (natRepr k).data = k := by
    intro k
    rw [natRepr]
    split
    · simp [digitsVal]
      omega
    · exact natReprAux_val k k le_rfl
  rw [hv, hv] at hval
  exact hval

/-- Severity letter of the compact encoding
(`issue.type === "error" ? "E" : issue.type === "warning" ? "W" : "I"`). -/
def sevLetter (s : Severity) : String :=
  match s with
  | Severity.error => "E"
  | Severity.warning => "W"
  | Severity.info => "I"

/-- The line part of the location segment; in the source this is the
template `${issue.line ? `:${issue.line}` : ""}`, so a line of `0` is
falsy and dropped like an absent one. -/
def lineSegOf (i : Issue) : String :=
  match i.line with
  | some n => if n = 0 then "" else ":" ++ natRepr n
  | none => ""

/-- The location segment
(`issue.file ? `${issue.file}${...}` : ""`); an empty-string file is
falsy and treated like an absent one. -/
def locOf (i : Issue) : String :=
  match i.file with
  | some f => if f = "" then "" else f ++ lineSegOf i
  | none => ""

/-- The rule segment (`issue.rule || ""`). -/
def ruleStrOf (i : Issue) : String :=
  match i.rule with
  | some r => r
  | none => ""

/-- `compactIssue` of the source: the single-string encoding
`<severityLetter>|<loc>|<message>|<rule>`. -/
def compactIssue (issue : Issue) : String :=
  sevLetter issue.type ++ "|" ++ locOf issue ++ "|" ++ issue.message ++ "|"
    ++ ruleStrOf issue

/-- Claim C9: for every issue whose `file` field is absent, the location
segment of the compact encoding is the empty string regardless of the
line number, so two issues that differ only in their line, both lacking
a file, encode to identical strings. -/
theorem compact_drops_line_without_file (i1 i2 : Issue)
    (h1 : i1.file = none) (h2 : i2.file = none)
    (ht : i1.type = i2.type) (hm : i1.message = i2.message)
    (hr : i1.rule = i2.rule) :
    compactIssue i1 = compactIssue i2 := by
  simp [compactIssue, locOf, ruleStrOf, h1, h2, ht, hm, hr]

theorem compact_drops_line_without_file_witness :
    compactIssue { type := Severity.warning, line := some 3, message := "m1" } =
      compactIssue { type := Severity.warning, line := some 4, message := "m1" } :=
  compact_drops_line_without_file _ _ rfl rfl rfl rfl rfl

/-- Claim C4 counterexample: the compact encoding is not lossless for
the combination "file absent, line present": two issues that differ
only in the line number encode to the same string, so no decoder can
recover the line. -/
theorem compact_not_lossless :
    compactIssue { type := Severity.error, line := some 1, message := "m" } =
      compactIssue { type := Severity.error, line := some 2, message := "m" } ∧
    ({ type := Severity.error, line := some 1, message := "m" } : Issue).line ≠
      ({ type := Severity.error, line := some 2, message := "m" } : Issue).line :=
  ⟨rfl, by decide⟩

/-- The clean domain of the compact encoding: no `|` in any field, no
`:` in the file, file and rule nonempty when present, and a line only
present (and positive) when a file is present. -/
def cleanIssue (i : Issue) : Bool :=
  decide ('|' ∉ i.message.data) &&
  (match i.file with
   | some f => decide (f ≠ "") && decide ('|' ∉ f.data) && decide (':' ∉ f.data)
   | none => true) &&
  (match i.rule with
   | some r => decide (r ≠ "") && decide ('|' ∉ r.data)
   | none => true) &&
  (match i.line with
   | some n => decide (0 < n) && decide (i.file ≠ none)
   | none => true)

theorem str_eq_of_data {s t : String} (h : s.data = t.data) : s = t :=
  String.ext h

/-- Splitting a list at a separator that occurs in neither left part is
unambiguous. -/
theorem sep_split {α : Type} [DecidableEq α] (sep : α) :
    ∀ (a c b d : List α), sep ∉ a → sep ∉ c →
      a ++ sep :: b = c ++ sep :: d → a = c ∧ b = d := by
  intro a
  induction a with
  | nil =>
    intro c b d _ hc h
    cases c with
    | nil => simpa using h
    | cons y c' =>
      simp only [List.nil_append, List.cons_append, List.cons.injEq] at h
      rw [← h.1] at hc
      simp at hc
  | cons x a' ih =>
    intro c b d ha hc h
    cases c with
    | nil =>
      simp only [List.nil_append, List.cons_append, List.cons.injEq] at h
      rw [h.1] at ha
      simp at ha
    | cons y c' =>
      simp only [List.cons_append, List.cons.injEq] at h
      have ha' : sep ∉ a' := fun hm => ha (List.mem_cons_of_mem _ hm)
      have hc' : sep ∉ c' := fun hm => hc (List.mem_cons_of_mem _ hm)
      have := ih c' b d ha' hc' h.2
      exact ⟨by rw [h.1, this.1], this.2⟩

theorem natRepr_no_bar (n : Nat) : '|' ∉ (natRepr n).data := by
  intro hmem
  have h := natRepr_data_digits n '|' hmem
  have hv : ('|' : Char).toNat = 124 := rfl
  omega

theorem natRepr_no_colon (n : Nat) : ':' ∉ (natRepr n).data := by
  intro hmem
  have h := natRepr_data_digits n ':' hmem
  have hv : (':' : Char).toNat = 58 := rfl
  omega

theorem sevLetter_no_bar (s : Severity) : '|' ∉ (sevLetter s).data := by
  cases s <;> decide

theorem sevLetter_inj {s t : Severity} (h : (sevLetter s).data = (sevLetter t).data) :
    s = t := by
  cases s <;> cases t <;> first | rfl | (exfalso; exact absurd h (by decide))

theorem compactIssue_data (i : Issue) :
    (compactIssue i).data =
      (sevLetter i.type).data ++ '|' :: ((locOf i).data ++ '|' ::
        (i.message.data ++ '|' :: (ruleStrOf i).data)) := by
  have hbar : ("|" : String).data = ['|'] := rfl
  simp [compactIssue, String.data_append, hbar]

theorem lineSegOf_no_bar (i : Issue) : '|' ∉ (lineSegOf i).data := by
  rcases hl : i.line with _ | n <;> simp only [lineSegOf, hl]
  · decide
  · by_cases hn : n = 0
    · rw [if_pos hn]
      decide
    · rw [if_neg hn, String.data_append]
      intro hmem
      rcases List.mem_append.mp hmem with hm | hm
      · exact absurd hm (by decide)
      · exact natRepr_no_bar n hm

theorem locOf_no_bar (i : Issue) (hclean : cleanIssue i = true) :
    '|' ∉ (locOf i).data := by
  rcases hf : i.file with _ | f <;> simp only [locOf, hf]
  · decide
  · by_cases he : f = ""
    · rw [if_pos he]
      decide
    · rw [if_neg he, String.data_append]
      intro hmem
      rcases List.mem_append.mp hmem with hm | hm
      · simp only [cleanIssue, hf, Bool.and_eq_true, decide_eq_true_eq] at hclean
        exact hclean.1.1.2.1.2 hm
      · exact lineSegOf_no_bar i hm

/-- Claim C4 (amended): on the clean domain — message, file and rule
free of the `|` delimiter, file free of `:` and nonempty when present,
rule nonempty when present, line positive and only present when a file
is present — the compact encoding is injective on the five logical
fields (severity, file, line, message, rule), i.e. it round-trips
losslessly there.  Outside that domain it loses information (see the
counterexample: the line is dropped whenever the file is absent). -/
theorem compactIssue_inj (i1 i2 : Issue)
    (h1 : cleanIssue i1 = true) (h2 : cleanIssue i2 = true)
    (h : compactIssue i1 = compactIssue i2) :
    i1.type = i2.type ∧ i1.file = i2.file ∧ i1.line = i2.line ∧
      i1.message = i2.message ∧ i1.rule = i2.rule := by
  have hdata : (compactIssue i1).data = (compactIssue i2).data := by rw [h]
  rw [compactIssue_data, compactIssue_data] at hdata
  have hsplit1 := sep_split '|' _ _ _ _ (sevLetter_no_bar i1.type)
    (sevLetter_no_bar i2.type) hdata
  have htype : i1.type = i2.type := sevLetter_inj hsplit1.1
  have hsplit2 := sep_split '|' _ _ _ _ (locOf_no_bar i1 h1)
    (locOf_no_bar i2 h2) hsplit1.2
  have hmsgbar1 : '|' ∉ i1.message.data := by
    simp only [cleanIssue, Bool.and_eq_true, decide_eq_true_eq] at h1
    exact h1.1.1.1
  have hmsgbar2 : '|' ∉ i2.message.data := by
    simp only [cleanIssue, Bool.and_eq_true, decide_eq_true_eq] at h2
    exact h2.1.1.1
  have hsplit3 := sep_split '|' _ _ _ _ hmsgbar1 hmsgbar2 hsplit2.2
  have hmsg : i1.message = i2.message := str_eq_of_data hsplit3.1
  -- rule
  have hrule : i1.rule = i2.rule := by
    have hr := hsplit3.2
    rcases hr1 : i1.rule with _ | r1 <;> rcases hr2 : i2.rule with _ | r2 <;>
      simp only [ruleStrOf, hr1, hr2] at hr
    · rfl
    · exfalso
      simp only [cleanIssue, hr2, Bool.and_eq_true, decide_eq_true_eq] at h2
      refine h2.1.2.1 (str_eq_of_data ?_)
      rw [← hr]
    · exfalso
      simp only [cleanIssue, hr1, Bool.and_eq_true, decide_eq_true_eq] at h1
      refine h1.1.2.1 (str_eq_of_data ?_)
      rw [hr]
    · rw [str_eq_of_data hr]
  -- file and line
  have hloc := hsplit2.1
  have hfileline : i1.file = i2.file ∧ i1.line = i2.line := by
    rcases hf1 : i1.file with _ | f1 <;> rcases hf2 : i2.file with _ | f2 <;>
      simp only [locOf, hf1, hf2] at hloc
    · -- both files absent: clean forces both lines absent
      refine ⟨rfl, ?_⟩
      rcases hl1 : i1.line with _ | n1 <;> rcases hl2 : i2.line with _ | n2
      · rfl
      · exfalso
        simp only [cleanIssue, hl2, Bool.and_eq_true, decide_eq_true_eq] at h2
        exact h2.2.2 hf2
      · exfalso
        simp only [cleanIssue, hl1, Bool.and_eq_true, decide_eq_true_eq] at h1
        exact h1.2.2 hf1
      · exfalso
        simp only [cleanIssue, hl1, Bool.and_eq_true, decide_eq_true_eq] at h1
        exact h1.2.2 hf1
    · -- i1 file absent, i2 file present: loc empty forces f2 empty
      exfalso
      simp only [cleanIssue, hf2, Bool.and_eq_true, decide_eq_true_eq] at h2
      rw [if_neg h2.1.1.2.1.1] at hloc
      have hnil : f2.data ++ (lineSegOf i2).data = [] := by
        rw [← String.data_append, ← hloc]
      rcases List.append_eq_nil.mp hnil with ⟨hg, _⟩
      exact h2.1.1.2.1.1 (str_eq_of_data hg)
    · exfalso
      simp only [cleanIssue, hf1, Bool.and_eq_true, decide_eq_true_eq] at h1
      rw [if_neg h1.1.1.2.1.1] at hloc
      have hnil : f1.data ++ (lineSegOf i1).data = [] := by
        rw [← String.data_append, hloc]
      rcases List.append_eq_nil.mp hnil with ⟨hg, _⟩
      exact h1.1.1.2.1.1 (str_eq_of_data hg)
    · -- both files present
      simp only [cleanIssue, hf1, Bool.and_eq_true, decide_eq_true_eq] at h1
      simp only [cleanIssue, hf2, Bool.and_eq_true, decide_eq_true_eq] at h2
      rw [if_neg h1.1.1.2.1.1, if_neg h2.1.1.2.1.1] at hloc
      have hdloc : f1.data ++ (lineSegOf i1).data = f2.data ++ (lineSegOf i2).data := by
        rwa [String.data_append, String.data_append] at hloc
      rcases hl1 : i1.line with _ | n1 <;> rcases hl2 : i2.line with _ | n2 <;>
        simp only [lineSegOf, hl1, hl2] at hdloc
      · -- both lines absent
        have hg : f1.data = f2.data := by
          rwa [List.append_nil, List.append_nil] at hdloc
        exact ⟨by rw [str_eq_of_data hg], rfl⟩
      · -- i1 no line, i2 has a positive line: colon would be in f1
        exfalso
        have hcl2 := h2
        simp only [cleanIssue, hl2, Bool.and_eq_true, decide_eq_true_eq] at hcl2
        rw [if_neg (by omega : ¬ n2 = 0)] at hdloc
        have hc2 : (":" ++ natRepr n2).data = ':' :: (natRepr n2).data := by
          rw [String.data_append]
          rfl
        rw [hc2] at hdloc
        rw [List.append_nil] at hdloc
        have hmem : ':' ∈ f1.data := by
          rw [hdloc]
          exact List.mem_append_right _ (List.mem_cons_self _ _)
        exact h1.1.1.2.2 hmem
      · exfalso
        have hcl1 := h1
        simp only [cleanIssue, hl1, Bool.and_eq_true, decide_eq_true_eq] at hcl1
        rw [if_neg (by omega : ¬ n1 = 0)] at hdloc
        have hc1 : (":" ++ natRepr n1).data = ':' :: (natRepr n1).data := by
          rw [String.data_append]
          rfl
        rw [hc1] at hdloc
        rw [List.append_nil] at hdloc
        have hmem : ':' ∈ f2.data := by
          rw [← hdloc]
          exact List.mem_append_right _ (List.mem_cons_self _ _)
        exact h2.1.1.2.2 hmem
      · -- both lines present and positive
        have hcl1 := h1
        have hcl2 := h2
        simp only [cleanIssue, hl1, Bool.and_eq_true, decide_eq_true_eq] at hcl1
        simp only [cleanIssue, hl2, Bool.and_eq_true, decide_eq_true_eq] at hcl2
        rw [if_neg (by omega : ¬ n1 = 0), if_neg (by omega : ¬ n2 = 0)] at hdloc
        have hc1 : (":" ++ natRepr n1).data = ':' :: (natRepr n1).data := by
          rw [String.data_append]
          rfl
        have hc2 : (":" ++ natRepr n2).data = ':' :: (natRepr n2).data := by
          rw [String.data_append]
          rfl
        rw [hc1, hc2] at hdloc
        have hsp := sep_split ':' _ _ _ _ h1.1.1.2.2 h2.1.1.2.2 hdloc
        refine ⟨by rw [str_eq_of_data hsp.1], ?_⟩
        rw [natRepr_inj (str_eq_of_data hsp.2)]
  exact ⟨htype, hfileline.1, hfileline.2, hmsg, hrule⟩

/-- A concrete clean issue used to witness `compactIssue_inj`. -/
def sampleIssueA : Issue :=
  ⟨Severity.error, some "a.ts", some 7, "m", some "r", none⟩

/-- Like `sampleIssueA` but with a different line number. -/
def sampleIssueB : Issue :=
  ⟨Severity.error, some "a.ts", some 8, "m", some "r", none⟩

theorem compactIssue_inj_witness :
    cleanIssue sampleIssueA = true ∧
    compactIssue sampleIssueA ≠ compactIssue sampleIssueB := by
  refine ⟨by decide, fun h => ?_⟩
  have hres := compactIssue_inj _ _ (by decide) (by decide) h
  exact absurd hres.2.2.1 (by decide)

/-- The `CheckResult` returned by `checkJscpd` in `--quick` mode. -/
def checkJscpdQuick : CheckResult :=
  { name := "Duplicate Code (jscpd)", status := Status.skip, duration := 0,
    issues := [], summary := "Skipped (--quick mode)" }

/-- The `CheckResult` returned by `checkMadge` in `--quick` mode. -/
def checkMadgeQuick : CheckResult :=
  { name := "Dependency Graph (madge)", status := Status.skip, duration := 0,
    issues := [], summary := "Skipped (--quick mode)" }

/-- The `CheckResult` returned by `checkArchitecture` in `--quick` mode. -/
def checkArchitectureQuick : CheckResult :=
  { name := "Architecture Boundaries", status := Status.skip, duration := 0,
    issues := [], summary := "Skipped (--quick mode)" }

/-- The `CheckResult` returned by `checkArchitecture` when no
`.dependency-cruiser.cjs` config exists; `d` is the measured duration. -/
def checkArchitectureNoConfig (d : Nat) : CheckResult :=
  { name := "Architecture Boundaries", status := Status.skip, duration := d,
    issues := [{ type := Severity.info,
                 message := "No .dependency-cruiser.cjs config found - skipping architecture check",
                 fix := some "Create .dependency-cruiser.cjs to define module boundaries" }],
    summary := "Config not found" }

/-- Claim C6 counterexample: not every `Skip` result has an empty issue
list — the architecture check's missing-configuration path returns
status `Skip` together with one (informational) issue. -/
theorem skip_with_nonempty_issues :
    (checkArchitectureNoConfig 0).status = Status.skip ∧
    (checkArchitectureNoConfig 0).issues.length = 1 := ⟨rfl, rfl⟩

/-- Claim C6 (amended): every quick-mode `Skip` result (duplicate-code,
dependency-graph and architecture checks) carries an empty issue list,
while the architecture check's missing-configuration `Skip` carries
exactly one issue, of severity `info`; no `Skip` path emits error or
warning issues. -/
theorem skip_issue_lists :
    checkJscpdQuick.status = Status.skip ∧ checkJscpdQuick.issues = [] ∧
    checkMadgeQuick.status = Status.skip ∧ checkMadgeQuick.issues = [] ∧
    checkArchitectureQuick.status = Status.skip ∧
    checkArchitectureQuick.issues = [] ∧
    ∀ d, (checkArchitectureNoConfig d).status = Status.skip ∧
      (checkArchitectureNoConfig d).issues.map Issue.type = [Severity.info] :=
  ⟨rfl, rfl, rfl, rfl, rfl, rfl, fun _ => ⟨rfl, rfl⟩⟩

/-- `detectMixedConcerns` of the source, with the content-level regex
results abstracted as arguments: `hasJsx` is whether `/<\w+[^>]*>/`
matches the content, and `maps`, `filters`, `ifs` are the global match
counts of `/\.map\s*\(/g`, `/\.filter\s*\(/g` and `/if\s*\(/g`.  The
boolean expression `A && B || C` is transcribed verbatim; Lean gives
`&&` the same higher precedence as JavaScript. -/
def detectMixedConcerns (hasJsx : Bool) (maps filters ifs : Nat) : Bool :=
  let hasHeavyLogic :=
    decide (3 < maps) && decide (2 < filters) || decide (10 < ifs)
  hasJsx && hasHeavyLogic

/-- The alternative grouping `A && (B || C)` that the spec warns the
code does NOT implement. -/
def mixedConcernsAlt (hasJsx : Bool) (maps filters ifs : Nat) : Bool :=
  let hasHeavyLogic :=
    decide (3 < maps) && (decide (2 < filters) || decide (10 < ifs))
  hasJsx && hasHeavyLogic

/-- Claim C7: the mixed-concerns flag is true iff the content has a
tag-like construct AND ( (more than 3 `.map(` calls AND more than 2
`.filter(` calls) OR more than 10 `if (` conditions ), i.e. the heavy-
logic disjunct groups as `(A && B) || C`; and this differs from the
grouping `A && (B || C)` (witnessed at `hasJsx`, 0 maps, 0 filters,
11 ifs). -/
theorem detectMixedConcerns_spec :
    (∀ (hasJsx : Bool) (maps filters ifs : Nat),
      detectMixedConcerns hasJsx maps filters ifs = true ↔
        hasJsx = true ∧ ((3 < maps ∧ 2 < filters) ∨ 10 < ifs)) ∧
    detectMixedConcerns true 0 0 11 ≠ mixedConcernsAlt true 0 0 11 := by
  constructor
  · intro hasJsx maps filters ifs
    simp [detectMixedConcerns]
  · decide

/-- The hook counters of `analyzeFile`; `custom` is the "other custom"
count, a possibly negative JavaScript number (see claim C8). -/
structure Hooks where
  useState : Nat
  useEffect : Nat
  useMemo : Nat
  useCallback : Nat
  useRef : Nat
  useQuery : Nat
  useMutation : Nat
  custom : Int
deriving DecidableEq

/-- The pattern flags of `analyzeFile`. -/
structure Patterns where
  inlineErrorBoundary : Bool
  multipleComponents : Bool
  deepJsxNesting : Bool
  longFunctions : List String
  mixedConcerns : Bool
deriving DecidableEq

/-- The per-file analysis record (`interface FileAnalysis`). -/
structure FileAnalysis where
  path : String
  lines : Nat
  hooks : Hooks
  patterns : Patterns
deriving DecidableEq

/-- `totalHooks` as computed by `checkComplexity` for `.tsx` files:
`useState + useEffect + useMemo + useCallback + useRef + custom`
(the query/mutation counts are not included, and `custom` is a possibly
negative JavaScript number). -/
def totalHooks (h : Hooks) : Int :=
  (h.useState : Int) + h.useEffect + h.useMemo + h.useCallback + h.useRef
    + h.custom

/-- Decimal string of an integer, as printed by a template literal. -/
def intRepr (n : Int) : String :=
  if n < 0 then "-" ++ natRepr n.natAbs else natRepr n.natAbs

/-- The oversized-file error issue of `checkComplexity`. -/
def fileSizeErrorIssue (path : String) (a : FileAnalysis) : Issue :=
  { type := Severity.error, file := some path,
    message := "File has " ++ natRepr a.lines ++ " lines (max 500)",
    rule := some "complexity/file-size",
    fix := some "Split into smaller, focused modules. Extract hooks, utilities, and sub-components." }

/-- The large-file warning issue of `checkComplexity`. -/
def fileSizeWarnIssue (path : String) (a : FileAnalysis) : Issue :=
  { type := Severity.warning, file := some path,
    message := "File has " ++ natRepr a.lines
      ++ " lines (consider splitting at 300+)",
    rule := some "complexity/file-size",
    fix := some "Consider extracting reusable logic into hooks or utilities." }

/-- The too-many-hooks error issue of `checkComplexity`. -/
def hooksErrorIssue (path : String) (a : FileAnalysis) : Issue :=
  { type := Severity.error, file := some path,
    message := "Component uses " ++ intRepr (totalHooks a.hooks)
      ++ " hooks (useState: " ++ natRepr a.hooks.useState
      ++ ", useEffect: " ++ natRepr a.hooks.useEffect
      ++ ", useMemo: " ++ natRepr a.hooks.useMemo
      ++ ", useCallback: " ++ natRepr a.hooks.useCallback
      ++ ", custom: " ++ intRepr a.hooks.custom ++ ")",
    rule := some "complexity/too-many-hooks",
    fix := some "Extract related hooks into a custom hook (e.g. useComponentNameState). Split component into smaller pieces." }

/-- The too-many-hooks warning issue of `checkComplexity`. -/
def hooksWarnIssue (path : String) (a : FileAnalysis) : Issue :=
  { type := Severity.warning, file := some path,
    message := "Component uses " ++ intRepr (totalHooks a.hooks)
      ++ " hooks - getting complex",
    rule := some "complexity/too-many-hooks",
    fix := some "Consider extracting related state and effects into a custom hook." }

/-- The effect-sprawl warning issue of `checkComplexity`. -/
def effectSprawlIssue (path : String) (a : FileAnalysis) : Issue :=
  { type := Severity.warning, file := some path,
    message := "Component has " ++ natRepr a.hooks.useEffect
      ++ " useEffect calls - side-effect sprawl",
    rule := some "complexity/effect-sprawl",
    fix := some "Consolidate related effects or extract to custom hooks. Consider if effects can be replaced with event handlers." }

/-- The over-memoization info issue of `checkComplexity`. -/
def overMemoIssue (path : String) (a : FileAnalysis) : Issue :=
  { type := Severity.info, file := some path,
    message := "Component has " ++ natRepr a.hooks.useMemo ++ " useMemo and "
      ++ natRepr a.hooks.useCallback
      ++ " useCallback - possible over-optimization",
    rule := some "complexity/over-memoization",
    fix := some "Review if all memos are necessary. React 19 compiler handles most memoization automatically." }

/-- The inline-error-boundary warning issue of `checkComplexity`. -/
def errorBoundaryIssue (path : String) : Issue :=
  { type := Severity.warning, file := some path,
    message := "Inline error boundary class in component file",
    rule := some "pattern/inline-error-boundary",
    fix := some "Move error boundary to shared/components/ErrorBoundary.tsx and import it." }

/-- The multiple-components info issue of `checkComplexity`. -/
def multipleComponentsIssue (path : String) : Issue :=
  { type := Severity.info, file := some path,
    message := "Multiple exported components in one file",
    rule := some "pattern/multiple-components",
    fix := some "Consider splitting each component into its own file for better organization." }

/-- The long-function warning issue of `checkComplexity`. -/
def longFunctionIssue (path : String) (func : String) : Issue :=
  { type := Severity.warning, file := some path,
    message := "Long function: " ++ func,
    rule := some "complexity/long-function",
    fix := some "Break down into smaller functions. Extract logic into utilities or hooks." }

/-- The mixed-concerns info issue of `checkComplexity`. -/
def mixedConcernsIssue (path : String) : Issue :=
  { type := Severity.info, file := some path,
    message := "File appears to mix business logic with UI rendering",
    rule := some "pattern/mixed-concerns",
    fix := some "Extract business logic to hooks/utilities. Keep components focused on rendering." }

/-- The per-file issue generation of `checkComplexity`, in the source's
push order: file size, hook counts (`.tsx` files only), inline error
boundary, multiple components, long functions (capped by
`slice(0, 3)`), mixed concerns. -/
def complexityFileIssues (path : String) (isTsx : Bool) (a : FileAnalysis) :
    List Issue :=
  (if 500 < a.lines then [fileSizeErrorIssue path a]
   else if 300 < a.lines then [fileSizeWarnIssue path a] else []) ++
  (if isTsx then
    (if 10 ≤ totalHooks a.hooks then [hooksErrorIssue path a]
     else if 6 ≤ totalHooks a.hooks then [hooksWarnIssue path a] else []) ++
    (if 4 ≤ a.hooks.useEffect then [effectSprawlIssue path a] else []) ++
    (if 6 ≤ a.hooks.useMemo + a.hooks.useCallback then [overMemoIssue path a]
     else [])
   else []) ++
  (if a.patterns.inlineErrorBoundary then [errorBoundaryIssue path] else []) ++
  (if a.patterns.multipleComponents then [multipleComponentsIssue path]
   else []) ++
  (if 0 < a.patterns.longFunctions.length then
    (a.patterns.longFunctions.take 3).map (longFunctionIssue path) else []) ++
  (if a.patterns.mixedConcerns then [mixedConcernsIssue path] else [])

/-- Recognizer for issues carrying the `complexity/long-function` rule. -/
def isLongFnIssue (i : Issue) : Bool :=
  decide (i.rule = some "complexity/long-function")

theorem filter_if_single (p : Issue → Bool) (c : Prop) [Decidable c]
    (i : Issue) (hi : p i = false) :
    List.filter p (if c then [i] else []) = [] := by
  split <;> simp [hi]

theorem filter_if_double (p : Issue → Bool) (c1 c2 : Prop) [Decidable c1]
    [Decidable c2] (i1 i2 : Issue) (hi1 : p i1 = false) (hi2 : p i2 = false) :
    List.filter p (if c1 then [i1] else if c2 then [i2] else []) = [] := by
  split_ifs <;> simp [hi1, hi2]

/-- Claim C10: for every analyzed file, the complexity check emits the
long-function warnings for exactly the first three detected long
functions — the issues with rule `complexity/long-function` among the
file's issues are precisely `longFunctions.take 3` mapped to warning
issues, so their number is `min 3` of the number detected and never
exceeds 3. -/
theorem complexity_longfn_cap (path : String) (isTsx : Bool)
    (a : FileAnalysis) :
    (complexityFileIssues path isTsx a).filter isLongFnIssue =
      (a.patterns.longFunctions.take 3).map (longFunctionIssue path) ∧
    ((complexityFileIssues path isTsx a).filter isLongFnIssue).length =
      min 3 a.patterns.longFunctions.length ∧
    (∀ f : String, (longFunctionIssue path f).type = Severity.warning) := by
  have hsz : List.filter isLongFnIssue
      (if 500 < a.lines then [fileSizeErrorIssue path a]
       else if 300 < a.lines then [fileSizeWarnIssue path a] else []) = [] :=
    filter_if_double _ _ _ _ _ rfl rfl
  have htsx : List.filter isLongFnIssue
      (if isTsx then
        (if 10 ≤ totalHooks a.hooks then [hooksErrorIssue path a]
         else if 6 ≤ totalHooks a.hooks then [hooksWarnIssue path a] else []) ++
        (if 4 ≤ a.hooks.useEffect then [effectSprawlIssue path a] else []) ++
        (if 6 ≤ a.hooks.useMemo + a.hooks.useCallback then [overMemoIssue path a]
         else [])
       else []) = [] := by
    split
    · rw [List.filter_append, List.filter_append,
        filter_if_double _ _ _ _ _ rfl rfl, filter_if_single _ _ _ rfl,
        filter_if_single _ _ _ rfl]
      rfl
    · rfl
  have heb : List.filter isLongFnIssue
      (if a.patterns.inlineErrorBoundary then [errorBoundaryIssue path]
       else []) = [] := filter_if_single _ _ _ rfl
  have hmc : List.filter isLongFnIssue
      (if a.patterns.multipleComponents then [multipleComponentsIssue path]
       else []) = [] := filter_if_single _ _ _ rfl
  have hmix : List.filter isLongFnIssue
      (if a.patterns.mixedConcerns then [mixedConcernsIssue path] else []) =
      [] := filter_if_single _ _ _ rfl
  have hlong : List.filter isLongFnIssue
      (if 0 < a.patterns.longFunctions.length then
        (a.patterns.longFunctions.take 3).map (longFunctionIssue path)
       else []) =
      (a.patterns.longFunctions.take 3).map (longFunctionIssue path) := by
    split
    · rw [List.filter_eq_self.mpr]
      intro i hi
      rcases List.mem_map.mp hi with ⟨f, _, rfl⟩
      rfl
    · rename_i hc
      have hnil : a.patterns.longFunctions = [] :=
        List.length_eq_zero.mp (by omega)
      simp [hnil]
  have hmain : (complexityFileIssues path isTsx a).filter isLongFnIssue =
      (a.patterns.longFunctions.take 3).map (longFunctionIssue path) := by
    simp only [complexityFileIssues, List.filter_append]
    rw [hsz, htsx, heb, hmc, hmix, hlong]
    simp
  refine ⟨hmain, ?_, fun _ => rfl⟩
  rw [hmain, List.length_map, List.length_take]

/-- JavaScript regex `\w`: ASCII letters, digits and underscore. -/
def isWordChar (c : Char) : Bool :=
  (decide ('a' ≤ c) && decide (c ≤ 'z')) ||
  (decide ('A' ≤ c) && decide (c ≤ 'Z')) ||
  (decide ('0' ≤ c) && decide (c ≤ '9')) || c == '_'

/-- The character class `[A-Z]`. -/
def isUpperAZ (c : Char) : Bool :=
  decide ('A' ≤ c) && decide (c ≤ 'Z')

/-- The character class `[a-zA-Z]`. -/
def isLetterAZ (c : Char) : Bool :=
  (decide ('a' ≤ c) && decide (c ≤ 'z')) ||
  (decide ('A' ≤ c) && decide (c ≤ 'Z'))

/-- Model of the regex class `\s` for the whitespace characters that
occur in source files. -/
def isJsSpace (c : Char) : Bool :=
  c == ' ' || c == '\t' || c == '\n' || c == '\r'

/-- Matcher for `/\buse[A-Z][a-zA-Z]*\s*\(/` at the head of `cs`, where
`prev` is the character preceding `cs` in the full content (`none` at
the start); returns the match length.  The greedy classes `[a-zA-Z]*`
and `\s*` need no backtracking because the classes and `(` are
pairwise disjoint. -/
def genericMatchAt (prev : Option Char) (cs : List Char) : Option Nat :=
  let boundary :=
    match prev with
    | none => true
    | some p => !isWordChar p
  if !boundary then none
  else
    match cs with
    | 'u' :: 's' :: 'e' :: c :: rest =>
      if isUpperAZ c then
        let letters := rest.takeWhile isLetterAZ
        let afterLetters := rest.drop letters.length
        let spaces := afterLetters.takeWhile isJsSpace
        let afterSpaces := afterLetters.drop spaces.length
        match afterSpaces with
        | '(' :: _ => some (4 + letters.length + spaces.length + 1)
        | _ => none
      else none
    | _ => none

/-- The alternatives of the named-category pattern
`useState|useEffect|useMemo|useCallback|useRef|useQuery|useMutation`,
in the source's order. -/
def namedLiterals : List (List Char) :=
  ["useState".data, "useEffect".data, "useMemo".data, "useCallback".data,
   "useRef".data, "useQuery".data, "useMutation".data]

/-- Matcher for the named-category alternation at the head of `cs`:
first alternative (in order) that is a prefix wins; note the pattern
requires neither a word boundary nor a following `(`. -/
def namedMatchAt (_prev : Option Char) (cs : List Char) : Option Nat :=
  (namedLiterals.find? (fun lit => lit.isPrefixOf cs)).map List.length

/-- Global match counting as `String.prototype.match` with a `/g` regex
does it: scan left to right, at each position take the match if any and
continue after its end, else advance one character.  `prev` tracks the
preceding character for word-boundary tests; fuel bounds the recursion
by the content length. -/
def scanCountAux (matchAt : Option Char → List Char → Option Nat) :
    Nat → Option Char → List Char → Nat
  | 0, _, _ => 0
  | _ + 1, _, [] => 0
  | fuel + 1, prev, c :: rest =>
    match matchAt prev (c :: rest) with
    | some (L + 1) =>
      1 + scanCountAux matchAt fuel (((c :: rest).take (L + 1)).getLast?)
            ((c :: rest).drop (L + 1))
    | _ => scanCountAux matchAt fuel (some c) rest

/-- Number of global matches of a pattern in a character list. -/
def scanCount (matchAt : Option Char → List Char → Option Nat)
    (cs : List Char) : Nat :=
  scanCountAux matchAt cs.length none cs

/-- The "other custom" hook count of `analyzeFile`:
`(content.match(/\buse[A-Z][a-zA-Z]*\s*\(/g) || []).length -
(content.match(/useState|useEffect|useMemo|useCallback|useRef|useQuery|useMutation/g) || []).length`,
a JavaScript number, i.e. integer subtraction. -/
def customHookCount (content : String) : Int :=
  (scanCount genericMatchAt content.data : Int)
    - (scanCount namedMatchAt content.data : Int)

/-- Claim C8 counterexample: for the content `useState` — the hook name
appearing without a call, e.g. passed as a value — the generic call
pattern `\buse[A-Z][a-zA-Z]*\s*\(` matches nothing (no parenthesis)
while the named-category pattern matches once, so the "other custom"
count is `-1`: negative. -/
theorem customHookCount_negative :
    customHookCount "useState" = -1 := by
  decide

/-- Claim C8 (amended): the "other custom" count is the integer
difference between the generic-call-pattern match count and the
named-category match count; because the named pattern requires neither
a word boundary nor a following `(`, it can exceed the generic count
and the difference can be negative (see the counterexample).  The count
is non-negative exactly on contents where the named-pattern count does
not exceed the generic-pattern count. -/
theorem customHookCount_nonneg (content : String)
    (h : scanCount namedMatchAt content.data ≤
      scanCount genericMatchAt content.data) :
    0 ≤ customHookCount content := by
  simp only [customHookCount]
  omega

theorem customHookCount_nonneg_witness :
    scanCount namedMatchAt "useState(".data ≤
      scanCount genericMatchAt "useState(".data ∧
    0 ≤ customHookCount "useState(" :=
  ⟨by decide, customHookCount_nonneg "useState(" (by decide)⟩

/-- One line of a source file as consumed by `detectLongFunctions`: the
raw text, used for brace counting, together with the result of the
function-introduction regex
`/(?:function\s+(\w+)|const\s+(\w+)\s*=\s*(?:async\s*)?\(|const\s+(\w+)\s*=\s*React\.memo)/`
abstracted to the captured function name (`none` when the line does not
match). -/
structure Line where
  text : String
  funcMatch : Option String
deriving DecidableEq

/-- `(line.match(/{/g) || []).length`. -/
def opens (l : Line) : Nat := l.text.data.count '\x7b'

/-- `(line.match(/}/g) || []).length`. -/
def closes (l : Line) : Nat := l.text.data.count '\x7d'

/-- Net brace contribution of one line. -/
def delta (l : Line) : Int := (opens l : Int) - closes l

/-- The loop state of `detectLongFunctions`: the four mutable locals
plus the accumulated result array. -/
structure LFState where
  currentFunction : String
  functionStartLine : Nat
  braceDepth : Int
  inFunction : Bool
  longFunctions : List String
deriving DecidableEq

/-- One iteration of the `detectLongFunctions` loop at line index `i`:
enter a function when the line matches and no function is open, then
add the line's brace balance, then close the function when the depth is
`≤ 0` strictly after the start line, recording it when the span exceeds
80 lines. -/
def lfStep (i : Nat) (s : LFState) (line : Line) : LFState :=
  let s1 :=
    match line.funcMatch, s.inFunction with
    | some name, false =>
      { s with
          currentFunction := name
          functionStartLine := i
          inFunction := true
          braceDepth := 0 }
    | _, _ => s
  let s2 := { s1 with braceDepth := s1.braceDepth + delta line }
  if s2.inFunction ∧ s2.braceDepth ≤ 0 ∧ s2.functionStartLine < i then
    { s2 with
        inFunction := false
        longFunctions :=
          if 80 < i - s2.functionStartLine then
            s2.longFunctions ++
              [s2.currentFunction ++ " (" ++ natRepr (i - s2.functionStartLine)
                ++ " lines)"]
          else s2.longFunctions }
  else s2

/-- The loop of `detectLongFunctions` from line index `i`. -/
def runLF : Nat → LFState → List Line → LFState
  | _, s, [] => s
  | i, s, l :: ls => runLF (i + 1) (lfStep i s l) ls

/-- The initial loop state (`currentFunction = ""`,
`functionStartLine = 0`, `braceDepth = 0`, `inFunction = false`). -/
def lfInit : LFState := ⟨"", 0, 0, false, []⟩

/-- `detectLongFunctions`, over the per-line representation. -/
def detectLongFunctions (lines : List Line) : List String :=
  (runLF 0 lfInit lines).longFunctions

/-- A top-level function block: a header line that matches the
function-introduction pattern followed by its body, whose last line
closes the braces opened since the header. -/
structure FnBlock where
  header : Line
  body : List Line
deriving DecidableEq

/-- The lines of a block. -/
def blockLines (b : FnBlock) : List Line := b.header :: b.body

/-- The name captured on the block's header line. -/
def blockName (b : FnBlock) : String := b.header.funcMatch.getD ""

/-- Brace depth after the header and the first `k` body lines. -/
def prefixDepth (b : FnBlock) (k : Nat) : Int :=
  delta b.header + ((b.body.take k).map delta).sum

/-- The entry the detector records for a long block. -/
def blockReport (b : FnBlock) : String :=
  blockName b ++ " (" ++ natRepr b.body.length ++ " lines)"

/-- A well-formed top-level function block: the header matches the
function pattern, no body line does (no nesting), the running brace
balance stays positive strictly inside the block, and the braces are
balanced exactly at the last body line. -/
def WellFormedBlock (b : FnBlock) : Prop :=
  b.header.funcMatch.isSome = true ∧
  b.body ≠ [] ∧
  (∀ l ∈ b.body, l.funcMatch = none) ∧
  (∀ k, k < b.body.length → 1 ≤ k → 0 < prefixDepth b k) ∧
  prefixDepth b b.body.length = 0

/-- Lines between function blocks: none matches the function pattern. -/
def IsFiller (ls : List Line) : Prop := ∀ l ∈ ls, l.funcMatch = none

instance (b : FnBlock) : Decidable (WellFormedBlock b) := by
  unfold WellFormedBlock
  infer_instance

instance (ls : List Line) : Decidable (IsFiller ls) := by
  unfold IsFiller
  infer_instance

/-- A source text made of `N` top-level function blocks separated by
filler lines. -/
def renderSource (pre : List Line) (segs : List (FnBlock × List Line)) :
    List Line :=
  pre ++ (segs.map (fun p => blockLines p.1 ++ p.2)).flatten

theorem runLF_append (xs ys : List Line) : ∀ (i : Nat) (s : LFState),
    runLF i s (xs ++ ys) = runLF (i + xs.length) (runLF i s xs) ys := by
  induction xs with
  | nil =>
    intro i s
    simp [runLF]
  | cons x xs ih =>
    intro i s
    simp only [List.cons_append, runLF, List.append_eq]
    rw [ih]
    congr 1
    simp only [List.length_cons]
    omega

theorem lfStep_filler (i : Nat) (s : LFState) (l : Line)
    (hl : l.funcMatch = none) (hin : s.inFunction = false) :
    lfStep i s l = { s with braceDepth := s.braceDepth + delta l } := by
  simp [lfStep, hl, hin]

theorem runLF_filler (fs : List Line) : ∀ (i : Nat) (s : LFState),
    IsFiller fs → s.inFunction = false →
    runLF i s fs = { s with braceDepth := s.braceDepth + (fs.map delta).sum } := by
  induction fs with
  | nil =>
    intro i s _ _
    simp [runLF]
  | cons f fs ih =>
    intro i s hf hin
    rw [runLF, lfStep_filler i s f (hf f (List.mem_cons_self f fs)) hin,
      ih (i + 1) { s with braceDepth := s.braceDepth + delta f }
        (fun l hl => hf l (List.mem_cons_of_mem f hl)) hin]
    simp [List.sum_cons]
    omega

theorem runLF_body : ∀ (rest : List Line) (i i0 : Nat) (name : String)
    (d : Int) (acc : List String),
    rest ≠ [] →
    (∀ l ∈ rest, l.funcMatch = none) →
    (∀ m, m < rest.length → 1 ≤ m → 0 < d + ((rest.take m).map delta).sum) →
    d + (rest.map delta).sum ≤ 0 →
    i0 < i →
    runLF i ⟨name, i0, d, true, acc⟩ rest =
      ⟨name, i0, d + (rest.map delta).sum, false,
        acc ++ (if 80 < i + rest.length - 1 - i0 then
          [name ++ " (" ++ natRepr (i + rest.length - 1 - i0) ++ " lines)"]
        else [])⟩ := by
  intro rest
  induction rest with
  | nil => intro i i0 name d acc hne; exact absurd rfl hne
  | cons r rest ih =>
    intro i i0 name d acc _ hfm hpre htot hi0
    have hr : r.funcMatch = none := hfm r (List.mem_cons_self r rest)
    cases rest with
    | nil =>
      -- last line of the block: the function closes here
      have htot' : d + delta r ≤ 0 := by
        simpa [List.sum_cons] using htot
      rw [runLF, runLF]
      have hidx : i + 1 - 1 - i0 = i - i0 := by omega
      simp only [lfStep, hr, List.map_cons, List.map_nil, List.sum_cons,
        List.sum_nil, hidx]
      simp [htot', hi0, Int.add_zero]
      by_cases h80 : 80 < i - i0 <;> simp [h80]
    | cons r' rest' =>
      -- interior line: the running depth stays positive, no close
      have hpos : 0 < d + delta r := by
        have h1 := hpre 1 (by simp) le_rfl
        simpa [List.take_succ_cons, List.sum_cons] using h1
      have hstep : lfStep i (⟨name, i0, d, true, acc⟩ : LFState) r =
          ⟨name, i0, d + delta r, true, acc⟩ := by
        have hneg : ¬ (d + delta r ≤ 0) := by omega
        simp [lfStep, hr, hneg]
      rw [runLF, hstep,
        ih (i + 1) i0 name (d + delta r) acc (by simp)
          (fun l hl => hfm l (List.mem_cons_of_mem r hl))
          (fun m hm hm1 => by
            have h2 := hpre (m + 1) (by simpa using Nat.succ_lt_succ hm)
              (by omega)
            simpa [List.take_succ_cons, List.sum_cons, Int.add_assoc] using h2)
          (by simpa [List.sum_cons, Int.add_assoc] using htot)
          (by omega)]
      have hidx : i + 1 + (r' :: rest').length - 1 - i0 =
          i + (r :: r' :: rest').length - 1 - i0 := by
        simp only [List.length_cons]
        omega
      rw [hidx]
      simp [List.sum_cons, Int.add_assoc]

theorem runLF_block (b : FnBlock) (i : Nat) (s : LFState)
    (hwf : WellFormedBlock b) (hin : s.inFunction = false) :
    runLF i s (blockLines b) =
      ⟨blockName b, i, 0, false,
        s.longFunctions ++
          (if 80 < b.body.length then [blockReport b] else [])⟩ := by
  obtain ⟨hsome, hne, hfm, hpre, hbal⟩ := hwf
  obtain ⟨name, hname⟩ := Option.isSome_iff_exists.mp hsome
  have hstep : lfStep i s b.header =
      ⟨name, i, delta b.header, true, s.longFunctions⟩ := by
    simp [lfStep, hname, hin]
  rw [blockLines, runLF, hstep,
    runLF_body b.body (i + 1) i name (delta b.header) s.longFunctions hne hfm
      (fun m hm hm1 => by simpa [prefixDepth] using hpre m hm hm1)
      (by simpa [prefixDepth, List.take_length] using Int.le_of_eq hbal)
      (by omega)]
  have hd : delta b.header + (b.body.map delta).sum = 0 := by
    simpa [prefixDepth, List.take_length] using hbal
  have hidx : i + 1 + b.body.length - 1 - i = b.body.length := by omega
  rw [hd, hidx]
  simp [blockName, hname, blockReport]

theorem runLF_segs (segs : List (FnBlock × List Line)) :
    ∀ (i : Nat) (s : LFState),
    (∀ p ∈ segs, WellFormedBlock p.1 ∧ IsFiller p.2) →
    s.inFunction = false →
    (runLF i s ((segs.map (fun p => blockLines p.1 ++ p.2)).flatten)).longFunctions
        = s.longFunctions ++
          ((segs.map Prod.fst).filter
            (fun b => decide (80 < b.body.length))).map blockReport ∧
    (runLF i s ((segs.map (fun p => blockLines p.1 ++ p.2)).flatten)).inFunction
        = false := by
  induction segs with
  | nil =>
    intro i s _ hin
    simp only [List.map_nil, List.flatten_nil, runLF, List.filter_nil]
    exact ⟨by simp, hin⟩
  | cons p segs ih =>
    intro i s hwf hin
    have hwfp := hwf p (List.mem_cons_self p segs)
    have hwfs : ∀ q ∈ segs, WellFormedBlock q.1 ∧ IsFiller q.2 :=
      fun q hq => hwf q (List.mem_cons_of_mem p hq)
    simp only [List.map_cons, List.flatten_cons]
    rw [List.append_assoc, runLF_append,
      runLF_block p.1 i s hwfp.1 hin, runLF_append,
      runLF_filler p.2 (i + (blockLines p.1).length)
        (⟨blockName p.1, i, 0, false,
          s.longFunctions ++
            (if 80 < p.1.body.length then [blockReport p.1] else [])⟩ : LFState)
        hwfp.2 rfl]
    dsimp only
    have hres := ih (i + (blockLines p.1).length + p.2.length)
      (⟨blockName p.1, i, 0 + (p.2.map delta).sum, false,
        s.longFunctions ++
          (if 80 < p.1.body.length then [blockReport p.1] else [])⟩ : LFState)
      hwfs rfl
    dsimp only at hres
    rw [List.filter_cons]
    by_cases hb : 80 < p.1.body.length
    · simp [hb] at hres ⊢
      refine ⟨?_, hres.2⟩
      rw [hres.1]
    · simp [hb] at hres ⊢
      refine ⟨?_, hres.2⟩
      rw [hres.1]

/-- Claim C5: for every source text made of top-level function blocks —
each introduced by a line matching the function pattern, with balanced
braces whose running balance stays positive strictly inside the block,
and none nested inside another — separated by filler lines matching no
function pattern, `detectLongFunctions` reports exactly those blocks
whose line span exceeds 80 lines, in order, each with its exact span
(the index of the line where the brace depth returns to `≤ 0` minus the
header's line index, which is the block's body length). -/
theorem detectLongFunctions_spec (pre : List Line)
    (segs : List (FnBlock × List Line))
    (hpre : IsFiller pre)
    (hsegs : ∀ p ∈ segs, WellFormedBlock p.1 ∧ IsFiller p.2) :
    detectLongFunctions (renderSource pre segs) =
      ((segs.map Prod.fst).filter (fun b => decide (80 < b.body.length))).map
        blockReport := by
  rw [detectLongFunctions, renderSource, runLF_append,
    runLF_filler pre 0 lfInit hpre rfl]
  have hres := runLF_segs segs (0 + pre.length)
    (⟨"", 0, 0 + (pre.map delta).sum, false, []⟩ : LFState) hsegs rfl
  dsimp only at hres
  dsimp only [lfInit]
  rw [hres.1]
  simp

/-- A body line with no braces and no function match. -/
def wBodyLine : Line := ⟨"", none⟩

/-- The closing line of the witness block. -/
def wCloseLine : Line := ⟨"\x7d", none⟩

/-- The header line of the witness block. -/
def wHeaderLine : Line := ⟨"function f() \x7b", some "f"⟩

/-- An 82-line function block (81 body lines): long enough to be
reported. -/
def wBlock : FnBlock := ⟨wHeaderLine, List.replicate 80 wBodyLine ++ [wCloseLine]⟩

set_option maxRecDepth 10000 in
theorem detectLongFunctions_spec_witness :
    (IsFiller [] ∧ WellFormedBlock wBlock) ∧
    detectLongFunctions (renderSource [] [(wBlock, [])]) = ["f (81 lines)"] := by
  refine ⟨⟨by decide, by decide⟩, ?_⟩
  rw [detectLongFunctions_spec [] [(wBlock, [])] (by decide)
    (by decide)]
  rfl

end CodeHealth
